import Mathlib

/-!
Shallow embedding of `guardian/managers.py` (object-level permission
assignment managers) from the django-guardian fork.

The record store is modelled as a list of `ObjectPermission` rows; the ORM
primitives the code calls (`get_or_create`, `bulk_create`,
`filter(...).delete()`, `Permission.objects.get`) are modelled as pure
functions over that list.  Every manager operation is a function
`DB → Except GErr α × DB`: a Python exception is an `.error` result paired
with the store as it was at the raise point (all raises in the source happen
before any write).

Value-level points kept faithful to the Python:
  * `object_pk` stores the raw `obj.pk` value unconverted (a Python value,
    here `Val` = int-or-string), while `bulk_remove_perm` filters
    `object_pk__in=[str(pk) ...]`; an int pk and its string form are
    distinct values (`5 != "5"` in Python).
  * owner columns: a concrete manager model has exactly one of a `user` or a
    `group` column (`user_or_group_field`); rows here carry a single
    `owner` slot standing for whichever column the manager uses, and the
    field-name selection logic itself is modelled separately on `Manager`.
-/

namespace Guardian

/-- A content-type identifier (`django.contrib.contenttypes`): a stable id
for a model class. -/
abbrev CType := Nat

/-- A user or group identity (`Owner = Union[User, Group]` in typings.py);
a manager instance is fixed to one of the two kinds, so a single id type
suffices. -/
abbrev Owner := Nat

/-- A Python primary-key value as stored/compared by the code: an int or a
string.  `str()` of an int is its decimal form; `str()` of a string is
itself; int and string values never compare equal. -/
inductive Val where
  | vint (n : Int)
  | vstr (s : String)
deriving DecidableEq, Repr

/-- Python `str()` on a `Val`. -/
def Val.str : Val → String
  | .vint n => toString n
  | .vstr s => s

/-- Python `str()` applied to a possibly-null pk (`str(None) = "None"`). -/
def strOfPk : Option Val → String
  | none => "None"
  | some v => v.str

/-- A model instance: its primary key (`None` when unpersisted) and its
content type (`get_content_type(obj)`). -/
structure Obj where
  pk : Option Val
  ctype : CType
deriving DecidableEq, Repr

/-- A row of the auth `Permission` table: codename + owning content type. -/
structure Permission where
  codename : String
  content_type : CType
deriving DecidableEq, Repr

/-- The duck-typed permission argument (`StrPerm = Union[str, Permission]`). -/
inductive PermRef where
  | name (s : String)
  | perm (p : Permission)
deriving DecidableEq, Repr

/-- The target reference stored on a permission row: the generic schema
variant stores `(content_type, object_pk)`; the direct variant stores a
`content_object` foreign key. -/
inductive Target where
  | generic (content_type : CType) (object_pk : Option Val)
  | direct (content_object : Obj)
deriving DecidableEq, Repr

/-- A stored object-permission row (`UserObjectPermission` /
`GroupObjectPermission`): permission, owner column value, target
reference. -/
structure ObjectPermission where
  permission : Permission
  owner : Option Owner
  target : Target
deriving DecidableEq, Repr

/-- A queryset: the declared model class (its content type) plus the rows it
yields. -/
structure QSet where
  modelCtype : CType
  objs : List Obj
deriving DecidableEq, Repr

/-- Database state: the auth `Permission` table and the manager's
object-permission table. -/
structure DB where
  perms : List Permission
  records : List ObjectPermission
deriving DecidableEq, Repr

/-- Exceptions the modelled code can raise. -/
inductive GErr where
  | objectNotPersisted
  | permissionDoesNotExist
  | multipleObjectsReturned
deriving DecidableEq, Repr

/-- Manager state: the field names declared by `self.model._meta` (what
`get_field` can see). -/
structure Manager where
  fields : List String
deriving DecidableEq, Repr

/-- `self.model._meta.get_field(name)`: `some` if the schema declares the
field, `none` standing for `FieldDoesNotExist`. -/
def Manager.get_field (m : Manager) (name : String) : Option String :=
  m.fields.find? (· == name)

/-- `user_or_group_field` property: try `get_field('user')`, return
`"user"`, on `FieldDoesNotExist` return `"group"`. -/
def Manager.user_or_group_field (m : Manager) : String :=
  match m.get_field "user" with
  | some _ => "user"
  | none => "group"

/-- `is_generic()`: try `get_field('object_pk')`, return `True`, on
`FieldDoesNotExist` return `False`. -/
def Manager.is_generic (m : Manager) : Bool :=
  match m.get_field "object_pk" with
  | some _ => true
  | none => false

/-- `Permission.objects.get(content_type=ctype, codename=perm)`: resolve a
bare codename against the permission table, `DoesNotExist` when absent. -/
def resolvePermission (perms : List Permission) (perm : PermRef) (ctype : CType) :
    Except GErr Permission :=
  match perm with
  | .perm p => .ok p
  | .name s =>
    match perms.find? (fun p => p.content_type == ctype && p.codename == s) with
    | some p => .ok p
    | none => .error .permissionDoesNotExist

/-- `_check_perm_obj(perm, obj)`: compute the content type (raising
`ObjectNotPersisted` for a single instance with null pk), then resolve the
permission when given as a bare name. -/
def check_perm_obj (perms : List Permission) (perm : PermRef) (obj : Sum Obj QSet) :
    Except GErr (Permission × CType) :=
  match obj with
  | .inr qs =>
    match resolvePermission perms perm qs.modelCtype with
    | .error e => .error e
    | .ok p => .ok (p, qs.modelCtype)
  | .inl o =>
    if o.pk = none then .error .objectNotPersisted
    else
      match resolvePermission perms perm o.ctype with
      | .error e => .error e
      | .ok p => .ok (p, o.ctype)

/-- The row built from `make_base_init_kwargs`'s kwargs dict: generic
variant stores `(permission, owner, content_type, object_pk := obj.pk)`
with the raw pk unconverted; direct variant stores
`(permission, owner, content_object := obj)`. -/
def initRecord (m : Manager) (permission : Permission) (owner : Option Owner)
    (obj : Obj) : ObjectPermission :=
  if m.is_generic then
    ⟨permission, owner, .generic obj.ctype obj.pk⟩
  else
    ⟨permission, owner, .direct obj⟩

/-- `make_base_init_kwargs(perm, owner, obj)`: `_check_perm_obj` on the
single instance, then the kwargs row per schema variant. -/
def make_base_init_kwargs (m : Manager) (perms : List Permission)
    (perm : PermRef) (owner : Option Owner) (obj : Obj) :
    Except GErr ObjectPermission :=
  match check_perm_obj perms perm (.inl obj) with
  | .error e => .error e
  | .ok (permission, _ctype) => .ok (initRecord m permission owner obj)

/-- ORM `get_or_create(**kwargs)`: `get` the row matching the kwargs
(raising `MultipleObjectsReturned` on several matches), creating and
appending it when absent; returns the row and a created flag. -/
def get_or_create (recs : List ObjectPermission) (r : ObjectPermission) :
    Except GErr ((ObjectPermission × Bool) × List ObjectPermission) :=
  match recs.filter (· == r) with
  | [] => .ok ((r, true), recs ++ [r])
  | [r0] => .ok ((r0, false), recs)
  | _ => .error .multipleObjectsReturned

/-- `assign_perm(perm, user_or_group, obj)`: build the kwargs, then
get-or-create the row. -/
def assign_perm (m : Manager) (perm : PermRef) (user_or_group : Owner)
    (obj : Obj) (db : DB) : Except GErr ObjectPermission × DB :=
  match make_base_init_kwargs m db.perms perm (some user_or_group) obj with
  | .error e => (.error e, db)
  | .ok r =>
    match get_or_create db.records r with
    | .error e => (.error e, db)
    | .ok ((obj_perm, _), recs) => (.ok obj_perm, { db with records := recs })

/-- The accumulation loop of `bulk_assign_perm`: for each instance the
checker does not already report as holding the permission, build the kwargs
row (which re-raises `ObjectNotPersisted` on a null pk) and accumulate it. -/
def buildAssigned (m : Manager) (perms : List Permission)
    (permission : Permission) (owner : Owner) (checker : String → Obj → Bool) :
    List Obj → Except GErr (List ObjectPermission)
  | [] => .ok []
  | inst :: rest =>
    if checker permission.codename inst then
      buildAssigned m perms permission owner checker rest
    else
      match make_base_init_kwargs m perms (.perm permission) (some owner) inst with
      | .error e => .error e
      | .ok r =>
        match buildAssigned m perms permission owner checker rest with
        | .error e => .error e
        | .ok rs => .ok (r :: rs)

/-- `bulk_assign_perm(perm, user_or_group, queryset)`: resolve the
permission once from the queryset's model, consult the (prefetch-warmed)
checker per instance, accumulate rows for instances not already holding the
permission, then one `bulk_create`.  `checker` is
`ObjectPermissionChecker(user_or_group).has_perm` as a black box, already
scoped to the owner. -/
def bulk_assign_perm (m : Manager) (perm : PermRef) (user_or_group : Owner)
    (queryset : QSet) (checker : String → Obj → Bool) (db : DB) :
    Except GErr (List ObjectPermission) × DB :=
  match check_perm_obj db.perms perm (.inr queryset) with
  | .error e => (.error e, db)
  | .ok (permission, _ctype) =>
    match buildAssigned m db.perms permission user_or_group checker queryset.objs with
    | .error e => (.error e, db)
    | .ok assigned_perms =>
      (.ok assigned_perms, { db with records := db.records ++ assigned_perms })

/-- `assign_perm_to_many(perm, users_or_groups, obj)`: one kwargs build with
a null owner, then one row per owner (the owner slot overwritten per
iteration), one `bulk_create`, no pre-existence check. -/
def assign_perm_to_many (m : Manager) (perm : PermRef)
    (users_or_groups : List Owner) (obj : Obj) (db : DB) :
    Except GErr (List ObjectPermission) × DB :=
  match make_base_init_kwargs m db.perms perm none obj with
  | .error e => (.error e, db)
  | .ok base =>
    let to_add := users_or_groups.map (fun u => { base with owner := some u })
    (.ok to_add, { db with records := db.records ++ to_add })

/-- Deprecated `assign`: emits a `DeprecationWarning` (no semantic content)
and delegates to `assign_perm`. -/
def assign (m : Manager) (perm : PermRef) (user_or_group : Owner) (obj : Obj)
    (db : DB) : Except GErr ObjectPermission × DB :=
  assign_perm m perm user_or_group obj db

/-- The row filter built by `remove_perm`: owner column equals the owner;
permission matches directly or by codename + the object's content type; the
target matches by `object_pk = obj.pk` (generic) or
`content_object__pk = obj.pk` (direct). -/
def remove_perm_filter (m : Manager) (perm : PermRef) (user_or_group : Owner)
    (obj : Obj) (r : ObjectPermission) : Bool :=
  (r.owner == some user_or_group)
  && (match perm with
      | .perm p => r.permission == p
      | .name s => r.permission.codename == s && r.permission.content_type == obj.ctype)
  && (if m.is_generic then
        match r.target with
        | .generic _ opk => opk == obj.pk
        | .direct _ => false
      else
        match r.target with
        | .generic _ _ => false
        | .direct o => o.pk == obj.pk)

/-- `remove_perm(perm, user_or_group, obj)`: raise on a null pk, else
`filter(...).delete()` — drop every matching row, reporting the count. -/
def remove_perm (m : Manager) (perm : PermRef) (user_or_group : Owner)
    (obj : Obj) (db : DB) : Except GErr Nat × DB :=
  if obj.pk = none then (.error .objectNotPersisted, db)
  else
    let filt := remove_perm_filter m perm user_or_group obj
    (.ok (db.records.countP filt),
     { db with records := db.records.filter (fun r => !filt r) })

/-- The row filter built by `bulk_remove_perm`: owner column equals the
owner; permission matches directly or by codename + the queryset model's
content type; the target matches by
`object_pk__in=[str(pk) for pk in queryset]` (generic — note the `str()`
conversion) or `content_object__in=queryset` (direct, pk membership). -/
def bulk_remove_perm_filter (m : Manager) (perm : PermRef)
    (user_or_group : Owner) (queryset : QSet) (r : ObjectPermission) : Bool :=
  (r.owner == some user_or_group)
  && (match perm with
      | .perm p => r.permission == p
      | .name s => r.permission.codename == s
                   && r.permission.content_type == queryset.modelCtype)
  && (if m.is_generic then
        match r.target with
        | .generic _ opk =>
          match opk with
          | some v => (queryset.objs.map (fun o => Val.vstr (strOfPk o.pk))).contains v
          | none => false
        | .direct _ => false
      else
        match r.target with
        | .generic _ _ => false
        | .direct o => (queryset.objs.map (fun o2 => o2.pk)).contains o.pk)

/-- `bulk_remove_perm(perm, user_or_group, queryset)`:
`filter(...).delete()` over the batch filter (no persistence check). -/
def bulk_remove_perm (m : Manager) (perm : PermRef) (user_or_group : Owner)
    (queryset : QSet) (db : DB) : Except GErr Nat × DB :=
  let filt := bulk_remove_perm_filter m perm user_or_group queryset
  (.ok (db.records.countP filt),
   { db with records := db.records.filter (fun r => !filt r) })

/-- A stored row grants permission `p` to owner `u` on object `obj`: the
permission and owner columns match and the target reference points at
`obj`'s primary key (under either schema variant). -/
def isForTriple (m : Manager) (p : Permission) (u : Owner) (obj : Obj)
    (r : ObjectPermission) : Prop :=
  r.permission = p ∧ r.owner = some u ∧
  (if m.is_generic = true then ∃ ct, r.target = .generic ct obj.pk
   else ∃ o, r.target = .direct o ∧ o.pk = obj.pk)

/-- Propositional reading of the permission conjunct shared by the two
delete filters: a direct `Permission` matches by equality, a bare codename
by codename + content type. -/
def permMatchesProp (perm : PermRef) (ct : CType) (r : ObjectPermission) : Prop :=
  match perm with
  | .perm p => r.permission = p
  | .name s => r.permission.codename = s ∧ r.permission.content_type = ct

/-- Propositional reading of `bulk_remove_perm`'s target conjunct: in the
generic variant the stored `object_pk` must equal the `str()` form of some
pk in the batch; in the direct variant the stored target's pk must be among
the batch's pks. -/
def targetInBatchProp (m : Manager) (qs : QSet) (r : ObjectPermission) : Prop :=
  if m.is_generic = true then
    ∃ ct v, r.target = .generic ct (some v) ∧ ∃ o ∈ qs.objs, v = .vstr (strOfPk o.pk)
  else
    ∃ o2, r.target = .direct o2 ∧ ∃ o ∈ qs.objs, o2.pk = o.pk

/-- Concrete generic-variant manager schema (UserObjectPermission with a
generic relation). -/
def mGen : Manager := ⟨["permission", "user", "content_type", "object_pk"]⟩

/-- Concrete direct-variant manager schema. -/
def mDir : Manager := ⟨["permission", "user", "content_object"]⟩

/-- A concrete permission row. -/
def permView : Permission := ⟨"view_item", 0⟩

/-- A persisted instance with an integer primary key. -/
def objIntPk : Obj := ⟨some (.vint 1), 0⟩

/-- A second persisted instance. -/
def objIntPk2 : Obj := ⟨some (.vint 2), 0⟩

/-- An unpersisted instance (`pk is None`). -/
def objNoPk : Obj := ⟨none, 0⟩

/-- A store holding the permission table and no object-permission rows. -/
def dbEmpty : DB := ⟨[permView], []⟩

/-- A store already holding the row `assign_perm` would create for
`(permView, owner 1, objIntPk)` under the generic schema. -/
def dbOneRec : DB := ⟨[permView], [initRecord mGen permView (some 1) objIntPk]⟩

/-- A queryset yielding the single instance `objIntPk`. -/
def qsOne : QSet := ⟨0, [objIntPk]⟩

/-- A queryset yielding two instances. -/
def qsTwo : QSet := ⟨0, [objIntPk, objIntPk2]⟩

/-- A checker reporting no permission as already held. -/
def chkNone : String → Obj → Bool := fun _ _ => false

end Guardian

namespace Guardian

theorem initRecord_owner (m : Manager) (p : Permission) (ow : Option Owner)
    (obj : Obj) : (initRecord m p ow obj).owner = ow := by
  unfold initRecord
  split <;> rfl

theorem initRecord_permission (m : Manager) (p : Permission) (ow : Option Owner)
    (obj : Obj) : (initRecord m p ow obj).permission = p := by
  unfold initRecord
  split <;> rfl

theorem initRecord_set_owner (m : Manager) (p : Permission) (ow : Option Owner)
    (obj : Obj) (u : Owner) :
    { initRecord m p ow obj with owner := some u } = initRecord m p (some u) obj := by
  unfold initRecord
  split <;> rfl

theorem initRecord_inj_owner (m : Manager) (p : Permission) (obj : Obj) :
    Function.Injective (fun u : Owner => initRecord m p (some u) obj) := by
  intro a b h
  have h2 := congrArg ObjectPermission.owner h
  rw [initRecord_owner, initRecord_owner] at h2
  exact Option.some.inj h2

theorem initRecord_inj_obj (m : Manager) (p : Permission) (ow : Option Owner) :
    Function.Injective (fun o : Obj => initRecord m p ow o) := by
  intro a b h
  by_cases hg : m.is_generic = true <;> simp [initRecord, hg] at h
  · cases a
    cases b
    simp_all
  · exact h

theorem make_kwargs_none (m : Manager) (perms : List Permission) (perm : PermRef)
    (ow : Option Owner) (obj : Obj) (h : obj.pk = none) :
    make_base_init_kwargs m perms perm ow obj = .error .objectNotPersisted := by
  simp [make_base_init_kwargs, check_perm_obj, h]

theorem make_kwargs_ok (m : Manager) (perms : List Permission) (perm : PermRef)
    (ow : Option Owner) (obj : Obj) (p : Permission) (hpk : obj.pk ≠ none)
    (hres : resolvePermission perms perm obj.ctype = .ok p) :
    make_base_init_kwargs m perms perm ow obj = .ok (initRecord m p ow obj) := by
  simp [make_base_init_kwargs, check_perm_obj, hpk, hres]

theorem filter_beq_of_count_zero {l : List ObjectPermission} {r : ObjectPermission}
    (h : l.count r = 0) : l.filter (· == r) = [] := by
  rw [List.count_eq_countP] at h
  exact List.filter_eq_nil_iff.mpr (List.countP_eq_zero.mp h)

theorem filter_beq_of_count_one {l : List ObjectPermission} {r : ObjectPermission}
    (h : l.count r = 1) : l.filter (· == r) = [r] := by
  rw [List.count_eq_countP, List.countP_eq_length_filter] at h
  obtain ⟨a, ha⟩ := List.length_eq_one.mp h
  have hm : a ∈ l.filter (· == r) := by
    rw [ha]
    exact List.mem_singleton.mpr rfl
  have hae : a = r := eq_of_beq (List.mem_filter.mp hm).2
  rw [ha, hae]

theorem get_or_create_fresh {recs : List ObjectPermission} {r : ObjectPermission}
    (h : recs.count r = 0) :
    get_or_create recs r = .ok ((r, true), recs ++ [r]) := by
  unfold get_or_create
  rw [filter_beq_of_count_zero h]

theorem get_or_create_found {recs : List ObjectPermission} {r : ObjectPermission}
    (h : recs.count r = 1) :
    get_or_create recs r = .ok ((r, false), recs) := by
  unfold get_or_create
  rw [filter_beq_of_count_one h]

theorem assign_perm_fresh (m : Manager) (perm : PermRef) (u : Owner) (obj : Obj)
    (db : DB) (p : Permission) (hpk : obj.pk ≠ none)
    (hres : resolvePermission db.perms perm obj.ctype = .ok p)
    (h0 : db.records.count (initRecord m p (some u) obj) = 0) :
    assign_perm m perm u obj db
      = (.ok (initRecord m p (some u) obj),
         { db with records := db.records ++ [initRecord m p (some u) obj] }) := by
  simp only [assign_perm, make_kwargs_ok m db.perms perm (some u) obj p hpk hres,
    get_or_create_fresh h0]

theorem assign_perm_found (m : Manager) (perm : PermRef) (u : Owner) (obj : Obj)
    (db : DB) (p : Permission) (hpk : obj.pk ≠ none)
    (hres : resolvePermission db.perms perm obj.ctype = .ok p)
    (h1 : db.records.count (initRecord m p (some u) obj) = 1) :
    assign_perm m perm u obj db = (.ok (initRecord m p (some u) obj), db) := by
  simp only [assign_perm, make_kwargs_ok m db.perms perm (some u) obj p hpk hres,
    get_or_create_found h1]

end Guardian

namespace Guardian

theorem get_field_isSome (m : Manager) (name : String) :
    (m.get_field name).isSome = true ↔ name ∈ m.fields := by
  simp [Manager.get_field, List.find?_isSome]

/-- C8: `is_generic()` returns true iff the managed record schema declares a
field named `object_pk`, and `user_or_group_field` returns `"user"` iff the
schema declares a `user` field, else `"group"`. -/
theorem C8_schema_variant_detection (m : Manager) :
    (m.is_generic = true ↔ "object_pk" ∈ m.fields)
    ∧ (m.user_or_group_field = "user" ↔ "user" ∈ m.fields)
    ∧ (m.user_or_group_field = "group" ↔ "user" ∉ m.fields) := by
  refine ⟨?_, ?_, ?_⟩
  · rw [← get_field_isSome m "object_pk"]
    unfold Manager.is_generic
    cases m.get_field "object_pk" <;> simp
  · rw [← get_field_isSome m "user"]
    unfold Manager.user_or_group_field
    cases m.get_field "user" <;> simp
  · rw [← get_field_isSome m "user"]
    unfold Manager.user_or_group_field
    cases m.get_field "user" <;> simp

/-- C9: the deprecated `assign` is a pure backward-compatibility shim: on
every input it returns the same result and leaves the same store as
`assign_perm` (the deprecation warning has no semantic content). -/
theorem C9_assign_is_assign_perm (m : Manager) (perm : PermRef) (u : Owner)
    (obj : Obj) (db : DB) :
    assign m perm u obj db = assign_perm m perm u obj db := rfl

/-- C2: on a target with no primary key, `assign_perm`,
`assign_perm_to_many` and `remove_perm` all raise `ObjectNotPersisted`
(propagated as the operation's result) and leave the store unchanged. -/
theorem C2_unpersisted_raises (m : Manager) (perm : PermRef) (u : Owner)
    (users : List Owner) (obj : Obj) (db : DB) (h : obj.pk = none) :
    assign_perm m perm u obj db = (.error .objectNotPersisted, db)
    ∧ assign_perm_to_many m perm users obj db = (.error .objectNotPersisted, db)
    ∧ remove_perm m perm u obj db = (.error .objectNotPersisted, db) := by
  refine ⟨?_, ?_, ?_⟩
  · simp only [assign_perm, make_kwargs_none m db.perms perm (some u) obj h]
  · simp only [assign_perm_to_many, make_kwargs_none m db.perms perm none obj h]
  · simp only [remove_perm, if_pos h]

theorem C2_unpersisted_raises_witness :
    assign_perm mGen (.name "view_item") 1 objNoPk dbEmpty
      = (.error .objectNotPersisted, dbEmpty)
    ∧ assign_perm_to_many mGen (.name "view_item") [1, 2] objNoPk dbEmpty
      = (.error .objectNotPersisted, dbEmpty)
    ∧ remove_perm mGen (.name "view_item") 1 objNoPk dbEmpty
      = (.error .objectNotPersisted, dbEmpty) :=
  C2_unpersisted_raises mGen (.name "view_item") 1 [1, 2] objNoPk dbEmpty rfl

/-- C3: `remove_perm` on a persisted object when no stored row matches the
delete filter succeeds with zero rows affected and leaves the store
unchanged. -/
theorem C3_remove_absent_is_noop (m : Manager) (perm : PermRef) (u : Owner)
    (obj : Obj) (db : DB) (hpk : obj.pk ≠ none)
    (habs : ∀ r ∈ db.records, remove_perm_filter m perm u obj r = false) :
    remove_perm m perm u obj db = (.ok 0, db) := by
  have hc : db.records.countP (remove_perm_filter m perm u obj) = 0 :=
    List.countP_eq_zero.mpr (by intro a ha; simp [habs a ha])
  have hf : db.records.filter (fun r => !remove_perm_filter m perm u obj r)
      = db.records :=
    List.filter_eq_self.mpr (by intro a ha; simp [habs a ha])
  simp only [remove_perm, if_neg hpk, hc, hf]

theorem C3_remove_absent_is_noop_witness :
    remove_perm mGen (.name "view_item") 1 objIntPk dbEmpty = (.ok 0, dbEmpty) :=
  C3_remove_absent_is_noop mGen (.name "view_item") 1 objIntPk dbEmpty
    (by decide) (by decide)

end Guardian

namespace Guardian

/-- C1: `assign_perm` has get-or-create semantics: calling it twice for the
same `(perm, owner, obj)` leaves exactly one stored row for that triple.
The first call returns the (existing or newly appended) kwargs row, after
it the store holds that row exactly once, and the second call returns the
same row and leaves the store untouched. -/
theorem C1_assign_perm_idempotent (m : Manager) (perm : PermRef) (u : Owner)
    (obj : Obj) (db : DB) (p : Permission)
    (hpk : obj.pk ≠ none)
    (hres : resolvePermission db.perms perm obj.ctype = .ok p)
    (hle : db.records.count (initRecord m p (some u) obj) ≤ 1) :
    (assign_perm m perm u obj db).1 = .ok (initRecord m p (some u) obj)
    ∧ (assign_perm m perm u obj db).2.records.count (initRecord m p (some u) obj) = 1
    ∧ assign_perm m perm u obj (assign_perm m perm u obj db).2
        = (.ok (initRecord m p (some u) obj), (assign_perm m perm u obj db).2) := by
  have h01 : db.records.count (initRecord m p (some u) obj) = 0
      ∨ db.records.count (initRecord m p (some u) obj) = 1 := by omega
  cases h01 with
  | inl h0 =>
    rw [assign_perm_fresh m perm u obj db p hpk hres h0]
    have hcnt : (db.records ++ [initRecord m p (some u) obj]).count
        (initRecord m p (some u) obj) = 1 := by
      rw [List.count_append, h0]
      simp
    exact ⟨rfl, hcnt, assign_perm_found m perm u obj _ p hpk hres hcnt⟩
  | inr h1 =>
    rw [assign_perm_found m perm u obj db p hpk hres h1]
    exact ⟨rfl, h1, assign_perm_found m perm u obj db p hpk hres h1⟩

theorem C1_assign_perm_idempotent_witness :
    (assign_perm mGen (.name "view_item") 1 objIntPk dbEmpty).1
      = .ok (initRecord mGen permView (some 1) objIntPk)
    ∧ (assign_perm mGen (.name "view_item") 1 objIntPk dbEmpty).2.records.count
        (initRecord mGen permView (some 1) objIntPk) = 1
    ∧ assign_perm mGen (.name "view_item") 1 objIntPk
          (assign_perm mGen (.name "view_item") 1 objIntPk dbEmpty).2
        = (.ok (initRecord mGen permView (some 1) objIntPk),
           (assign_perm mGen (.name "view_item") 1 objIntPk dbEmpty).2) :=
  C1_assign_perm_idempotent mGen (.name "view_item") 1 objIntPk dbEmpty permView
    (by decide) rfl (by decide)

theorem isForTriple_matches (m : Manager) (perm : PermRef) (u : Owner)
    (obj : Obj) (perms : List Permission) (p : Permission)
    (hres : resolvePermission perms perm obj.ctype = .ok p)
    (r : ObjectPermission) (h : isForTriple m p u obj r) :
    remove_perm_filter m perm u obj r = true := by
  obtain ⟨hp, ho, ht⟩ := h
  unfold remove_perm_filter
  rw [Bool.and_eq_true, Bool.and_eq_true]
  refine ⟨⟨by simp [ho], ?_⟩, ?_⟩
  · cases perm with
    | perm p0 =>
      have hpp : p0 = p := by
        simpa [resolvePermission] using hres
      simp [hp, hpp]
    | name s =>
      rcases hfind : perms.find? (fun q => q.content_type == obj.ctype && q.codename == s) with _ | q
      · rw [resolvePermission, hfind] at hres
        cases hres
      · rw [resolvePermission, hfind] at hres
        have hqp : q = p := by
          cases hres
          rfl
        have hq := List.find?_some hfind
        rw [Bool.and_eq_true, beq_iff_eq, beq_iff_eq] at hq
        subst hqp
        simp [hp, hq.1, hq.2]
  · by_cases hg : m.is_generic = true
    · rw [if_pos hg] at ht
      obtain ⟨ct, hct⟩ := ht
      simp [hg, hct]
    · rw [if_neg hg] at ht
      obtain ⟨o, hto, hopk⟩ := ht
      simp [hg, hto, hopk]

/-- C4: `assign_perm(p,o,x)` followed by `remove_perm(p,o,x)` leaves zero
stored rows granting `p` to `o` on `x` (round-trip): the assignment
succeeds and every row surviving the removal fails `isForTriple`. -/
theorem C4_assign_remove_roundtrip (m : Manager) (perm : PermRef) (u : Owner)
    (obj : Obj) (db : DB) (p : Permission)
    (hpk : obj.pk ≠ none)
    (hres : resolvePermission db.perms perm obj.ctype = .ok p)
    (hle : db.records.count (initRecord m p (some u) obj) ≤ 1) :
    (∃ rec, (assign_perm m perm u obj db).1 = .ok rec)
    ∧ ∀ r ∈ (remove_perm m perm u obj (assign_perm m perm u obj db).2).2.records,
        ¬ isForTriple m p u obj r := by
  constructor
  · have h01 : db.records.count (initRecord m p (some u) obj) = 0
        ∨ db.records.count (initRecord m p (some u) obj) = 1 := by omega
    cases h01 with
    | inl h0 =>
      rw [assign_perm_fresh m perm u obj db p hpk hres h0]
      exact ⟨initRecord m p (some u) obj, rfl⟩
    | inr h1 =>
      rw [assign_perm_found m perm u obj db p hpk hres h1]
      exact ⟨initRecord m p (some u) obj, rfl⟩
  · intro r hr htriple
    simp only [remove_perm, if_neg hpk] at hr
    have hmem := List.mem_filter.mp hr
    have hfalse := hmem.2
    rw [isForTriple_matches m perm u obj db.perms p hres r htriple] at hfalse
    simp at hfalse

theorem C4_assign_remove_roundtrip_witness :
    (∃ rec, (assign_perm mGen (.name "view_item") 1 objIntPk dbEmpty).1 = .ok rec)
    ∧ ∀ r ∈ (remove_perm mGen (.name "view_item") 1 objIntPk
          (assign_perm mGen (.name "view_item") 1 objIntPk dbEmpty).2).2.records,
        ¬ isForTriple mGen permView 1 objIntPk r :=
  C4_assign_remove_roundtrip mGen (.name "view_item") 1 objIntPk dbEmpty permView
    (by decide) rfl (by decide)

end Guardian

namespace Guardian

/-- C6: `assign_perm_to_many(p, users, x)` bulk-creates exactly one new row
per owner in the batch — each carrying that owner, all sharing the resolved
permission and the target built from `x` — appended with no pre-existence
check, so the stored multiplicity of each `(p, owner, x)` row grows by the
owner's multiplicity in the batch even when a row already existed. -/
theorem C6_assign_to_many_one_row_per_owner (m : Manager) (perm : PermRef)
    (users : List Owner) (obj : Obj) (db : DB) (p : Permission)
    (hpk : obj.pk ≠ none)
    (hres : resolvePermission db.perms perm obj.ctype = .ok p) :
    (assign_perm_to_many m perm users obj db).1
      = .ok (users.map (fun u => initRecord m p (some u) obj))
    ∧ (assign_perm_to_many m perm users obj db).2.records
      = db.records ++ users.map (fun u => initRecord m p (some u) obj)
    ∧ (users.map (fun u => initRecord m p (some u) obj)).length = users.length
    ∧ ∀ u ∈ users,
        (assign_perm_to_many m perm users obj db).2.records.count
            (initRecord m p (some u) obj)
          = db.records.count (initRecord m p (some u) obj) + users.count u := by
  have hmap : users.map (fun u => { initRecord m p none obj with owner := some u })
      = users.map (fun u => initRecord m p (some u) obj) := by
    apply List.map_congr_left
    intro u _
    exact initRecord_set_owner m p none obj u
  have e : assign_perm_to_many m perm users obj db
      = (.ok (users.map (fun u => initRecord m p (some u) obj)),
         { db with records :=
             db.records ++ users.map (fun u => initRecord m p (some u) obj) }) := by
    simp only [assign_perm_to_many, make_kwargs_ok m db.perms perm none obj p hpk hres,
      hmap]
  rw [e]
  refine ⟨rfl, rfl, by simp, ?_⟩
  intro u hu
  simp only [List.count_append]
  congr 1
  exact List.count_map_of_injective users (fun u => initRecord m p (some u) obj)
    (initRecord_inj_owner m p obj) u

theorem C6_assign_to_many_one_row_per_owner_witness :
    (assign_perm_to_many mGen (.name "view_item") [1, 2] objIntPk dbOneRec).1
      = .ok ([1, 2].map (fun u => initRecord mGen permView (some u) objIntPk))
    ∧ (assign_perm_to_many mGen (.name "view_item") [1, 2] objIntPk dbOneRec).2.records
      = dbOneRec.records ++ [1, 2].map (fun u => initRecord mGen permView (some u) objIntPk)
    ∧ ([1, 2].map (fun u => initRecord mGen permView (some u) objIntPk)).length
      = ([1, 2] : List Owner).length
    ∧ ∀ u ∈ ([1, 2] : List Owner),
        (assign_perm_to_many mGen (.name "view_item") [1, 2] objIntPk dbOneRec).2.records.count
            (initRecord mGen permView (some u) objIntPk)
          = dbOneRec.records.count (initRecord mGen permView (some u) objIntPk)
            + ([1, 2] : List Owner).count u :=
  C6_assign_to_many_one_row_per_owner mGen (.name "view_item") [1, 2] objIntPk
    dbOneRec permView (by decide) rfl

end Guardian

namespace Guardian

theorem buildAssigned_ok (m : Manager) (perms : List Permission) (p : Permission)
    (u : Owner) (checker : String → Obj → Bool) (l : List Obj)
    (hpk : ∀ o ∈ l, o.pk ≠ none) :
    buildAssigned m perms p u checker l
      = .ok ((l.filter (fun o => !checker p.codename o)).map (initRecord m p (some u))) := by
  induction l with
  | nil => rfl
  | cons a rest ih =>
    have ha : a.pk ≠ none := hpk a (List.mem_cons_self a rest)
    have hrest : ∀ o ∈ rest, o.pk ≠ none := fun o ho => hpk o (List.mem_cons_of_mem a ho)
    cases hc : checker p.codename a with
    | true =>
      simp only [buildAssigned, hc, if_true, ih hrest, List.filter_cons, Bool.not_true,
        Bool.false_eq_true, reduceIte]
    | false =>
      simp only [buildAssigned, hc, Bool.false_eq_true, if_false,
        make_kwargs_ok m perms (.perm p) (some u) a p ha rfl, ih hrest,
        List.filter_cons, Bool.not_false, if_true, List.map_cons]

theorem bulk_assign_eq (m : Manager) (perm : PermRef) (u : Owner) (qs : QSet)
    (checker : String → Obj → Bool) (db : DB) (p : Permission)
    (hres : resolvePermission db.perms perm qs.modelCtype = .ok p)
    (hpk : ∀ o ∈ qs.objs, o.pk ≠ none) :
    bulk_assign_perm m perm u qs checker db
      = (.ok ((qs.objs.filter (fun o => !checker p.codename o)).map (initRecord m p (some u))),
         { db with records := db.records
             ++ (qs.objs.filter (fun o => !checker p.codename o)).map (initRecord m p (some u)) }) := by
  simp only [bulk_assign_perm, check_perm_obj, hres,
    buildAssigned_ok m db.perms p u checker qs.objs hpk]

/-- C5: `bulk_assign_perm(p, o, Q)` over persisted, pairwise-distinct
instances creates exactly one new row per instance the checker does not
already report as holding `p` (the returned list is duplicate-free and
contains an instance's row iff the checker said false), skips the rest,
returns only the newly created rows (appended to the store), and — when the
checker is truthful about existing rows — afterwards every instance of `Q`
has a stored row granting `p` to `o`. -/
theorem C5_bulk_assign_correct (m : Manager) (perm : PermRef) (u : Owner)
    (qs : QSet) (checker : String → Obj → Bool) (db : DB) (p : Permission)
    (hpk : ∀ o ∈ qs.objs, o.pk ≠ none)
    (hres : resolvePermission db.perms perm qs.modelCtype = .ok p)
    (hnd : qs.objs.Nodup)
    (hsound : ∀ o ∈ qs.objs, checker p.codename o = true →
        initRecord m p (some u) o ∈ db.records) :
    (bulk_assign_perm m perm u qs checker db).1
      = .ok ((qs.objs.filter (fun o => !checker p.codename o)).map (initRecord m p (some u)))
    ∧ (bulk_assign_perm m perm u qs checker db).2.records
      = db.records
        ++ (qs.objs.filter (fun o => !checker p.codename o)).map (initRecord m p (some u))
    ∧ ((qs.objs.filter (fun o => !checker p.codename o)).map (initRecord m p (some u))).Nodup
    ∧ (∀ o ∈ qs.objs,
        (initRecord m p (some u) o
            ∈ (qs.objs.filter (fun o2 => !checker p.codename o2)).map (initRecord m p (some u))
          ↔ checker p.codename o = false))
    ∧ ∀ o ∈ qs.objs,
        initRecord m p (some u) o ∈ (bulk_assign_perm m perm u qs checker db).2.records := by
  rw [bulk_assign_eq m perm u qs checker db p hres hpk]
  have hinj : ∀ x ∈ qs.objs.filter (fun o => !checker p.codename o),
      ∀ y ∈ qs.objs.filter (fun o => !checker p.codename o),
      initRecord m p (some u) x = initRecord m p (some u) y → x = y :=
    fun x _ y _ h => initRecord_inj_obj m p (some u) h
  have hmemiff : ∀ o ∈ qs.objs,
      (initRecord m p (some u) o
          ∈ (qs.objs.filter (fun o2 => !checker p.codename o2)).map (initRecord m p (some u))
        ↔ checker p.codename o = false) := by
    intro o ho
    constructor
    · intro hmem
      obtain ⟨a, haf, hae⟩ := List.mem_map.mp hmem
      have : a = o := initRecord_inj_obj m p (some u) hae
      subst this
      have := (List.mem_filter.mp haf).2
      simpa using this
    · intro hfalse
      exact List.mem_map_of_mem _
        (List.mem_filter.mpr ⟨ho, by simp [hfalse]⟩)
  refine ⟨rfl, rfl, ?_, hmemiff, ?_⟩
  · exact List.Nodup.map_on hinj (List.Nodup.filter _ hnd)
  · intro o ho
    cases hc : checker p.codename o with
    | true =>
      exact List.mem_append_left _ (hsound o ho hc)
    | false =>
      exact List.mem_append_right _ ((hmemiff o ho).mpr hc)

theorem C5_bulk_assign_correct_witness :
    (bulk_assign_perm mGen (.name "view_item") 1 qsTwo chkNone dbEmpty).1
      = .ok ((qsTwo.objs.filter (fun o => !chkNone permView.codename o)).map
          (initRecord mGen permView (some 1)))
    ∧ (bulk_assign_perm mGen (.name "view_item") 1 qsTwo chkNone dbEmpty).2.records
      = dbEmpty.records
        ++ (qsTwo.objs.filter (fun o => !chkNone permView.codename o)).map
            (initRecord mGen permView (some 1))
    ∧ ((qsTwo.objs.filter (fun o => !chkNone permView.codename o)).map
          (initRecord mGen permView (some 1))).Nodup
    ∧ (∀ o ∈ qsTwo.objs,
        (initRecord mGen permView (some 1) o
            ∈ (qsTwo.objs.filter (fun o2 => !chkNone permView.codename o2)).map
                (initRecord mGen permView (some 1))
          ↔ chkNone permView.codename o = false))
    ∧ ∀ o ∈ qsTwo.objs,
        initRecord mGen permView (some 1) o
          ∈ (bulk_assign_perm mGen (.name "view_item") 1 qsTwo chkNone dbEmpty).2.records :=
  C5_bulk_assign_correct mGen (.name "view_item") 1 qsTwo chkNone dbEmpty permView
    (by decide) rfl (by decide) (by decide)

end Guardian

namespace Guardian

theorem bulk_filter_iff (m : Manager) (perm : PermRef) (u : Owner) (qs : QSet)
    (r : ObjectPermission) :
    bulk_remove_perm_filter m perm u qs r = true
      ↔ r.owner = some u ∧ permMatchesProp perm qs.modelCtype r
          ∧ targetInBatchProp m qs r := by
  unfold bulk_remove_perm_filter permMatchesProp targetInBatchProp
  rw [Bool.and_eq_true, Bool.and_eq_true, and_assoc]
  apply and_congr
  · exact beq_iff_eq
  apply and_congr
  · cases perm with
    | perm p => exact beq_iff_eq
    | name s =>
      rw [Bool.and_eq_true]
      exact and_congr beq_iff_eq beq_iff_eq
  · by_cases hg : m.is_generic = true
    · rw [if_pos hg, if_pos hg]
      cases r.target with
      | direct o => simp
      | generic ct opk =>
        cases opk with
        | none => simp
        | some v =>
          show ((qs.objs.map (fun o => Val.vstr (strOfPk o.pk))).contains v = true) ↔ _
          rw [show (((qs.objs.map (fun o => Val.vstr (strOfPk o.pk))).contains v = true)
              ↔ v ∈ qs.objs.map (fun o => Val.vstr (strOfPk o.pk))) from List.elem_iff]
          constructor
          · intro hmem
            obtain ⟨o, ho, he⟩ := List.mem_map.mp hmem
            exact ⟨ct, v, rfl, o, ho, he.symm⟩
          · rintro ⟨ct2, v2, he, o, ho, hv2⟩
            injection he with h1 h2
            injection h2 with h3
            rw [h3, hv2]
            exact List.mem_map_of_mem _ ho
    · rw [if_neg hg, if_neg hg]
      cases r.target with
      | generic ct opk => simp
      | direct o =>
        show ((qs.objs.map (fun o2 => o2.pk)).contains o.pk = true) ↔ _
        rw [show (((qs.objs.map (fun o2 => o2.pk)).contains o.pk = true)
            ↔ o.pk ∈ qs.objs.map (fun o2 => o2.pk)) from List.elem_iff]
        constructor
        · intro hmem
          obtain ⟨o2, ho2, he⟩ := List.mem_map.mp hmem
          exact ⟨o, rfl, o2, ho2, he.symm⟩
        · rintro ⟨o2, he, o3, ho3, hv⟩
          injection he with h1
          rw [h1, hv]
          exact List.mem_map_of_mem _ ho3

end Guardian

namespace Guardian

theorem C7_claim_counterexample :
    (initRecord mGen permView (some 1) objIntPk).owner = some 1
    ∧ (initRecord mGen permView (some 1) objIntPk).permission = permView
    ∧ (initRecord mGen permView (some 1) objIntPk).target
        = .generic objIntPk.ctype objIntPk.pk
    ∧ objIntPk ∈ qsOne.objs
    ∧ initRecord mGen permView (some 1) objIntPk ∈ dbOneRec.records
    ∧ (bulk_remove_perm mGen (.perm permView) 1 qsOne dbOneRec).1 = .ok 0
    ∧ (bulk_remove_perm mGen (.perm permView) 1 qsOne dbOneRec).2 = dbOneRec :=
  ⟨rfl, rfl, rfl, by decide, by decide, rfl, rfl⟩

/-- C7 (amended): `bulk_remove_perm(p, o, Q)` deletes exactly the stored
rows whose owner is `o`, whose permission matches `p` (directly, or by
codename + the batch model's content type), and whose target reference
matches the batch under the code's per-variant comparison — direct variant:
the stored target's pk is among `Q`'s pks; generic variant: the stored
`object_pk` equals the `str()` form of some pk in `Q` (so a raw non-string
`object_pk`, as stored by `assign_perm`, is never matched).  The reported
count is the number of such rows and every other row is kept. -/
theorem C7_bulk_remove_exact (m : Manager) (perm : PermRef) (u : Owner)
    (qs : QSet) (db : DB) :
    (bulk_remove_perm m perm u qs db).1
      = .ok ((db.records.filter (bulk_remove_perm_filter m perm u qs)).length)
    ∧ ∀ r ∈ db.records,
        (r ∈ (bulk_remove_perm m perm u qs db).2.records
          ↔ ¬(r.owner = some u ∧ permMatchesProp perm qs.modelCtype r
              ∧ targetInBatchProp m qs r)) := by
  constructor
  · simp only [bulk_remove_perm, List.countP_eq_length_filter]
  · intro r hr
    rw [← bulk_filter_iff m perm u qs r]
    simp only [bulk_remove_perm]
    rw [List.mem_filter]
    simp [hr]

theorem C7_bulk_remove_exact_witness :
    (bulk_remove_perm mGen (.perm permView) 1 qsOne dbOneRec).1
      = .ok ((dbOneRec.records.filter
          (bulk_remove_perm_filter mGen (.perm permView) 1 qsOne)).length)
    ∧ (initRecord mGen permView (some 1) objIntPk
          ∈ (bulk_remove_perm mGen (.perm permView) 1 qsOne dbOneRec).2.records
        ↔ ¬((initRecord mGen permView (some 1) objIntPk).owner = some 1
            ∧ permMatchesProp (.perm permView) qsOne.modelCtype
                (initRecord mGen permView (some 1) objIntPk)
            ∧ targetInBatchProp mGen qsOne
                (initRecord mGen permView (some 1) objIntPk))) := by
  have h := C7_bulk_remove_exact mGen (.perm permView) 1 qsOne dbOneRec
  exact ⟨h.1, h.2 (initRecord mGen permView (some 1) objIntPk) (by decide)⟩

end Guardian

namespace Guardian

/-- C10: under the generic schema, `assign_perm` stores the raw `obj.pk` in
`object_pk` and `remove_perm` filters `object_pk` against the raw `obj.pk`
(the freshly created row is matched), but `bulk_remove_perm` filters
`object_pk` against `str(pk)`; so whenever the stored value does not equal
its own string form, the row `assign_perm` created is not matched by
`bulk_remove_perm` over a batch containing the target, and survives the
deletion. -/
theorem C10_bulk_remove_str_mismatch (m : Manager) (perm : PermRef) (u : Owner)
    (obj : Obj) (qs : QSet) (db : DB) (p : Permission) (v : Val)
    (hgen : m.is_generic = true)
    (hpk : obj.pk = some v)
    (hmis : v ≠ .vstr v.str)
    (_hin : obj ∈ qs.objs)
    (hres : resolvePermission db.perms perm obj.ctype = .ok p)
    (hfresh : db.records.count (initRecord m p (some u) obj) = 0) :
    (assign_perm m perm u obj db).1 = .ok (initRecord m p (some u) obj)
    ∧ (initRecord m p (some u) obj).target = .generic obj.ctype (some v)
    ∧ remove_perm_filter m perm u obj (initRecord m p (some u) obj) = true
    ∧ bulk_remove_perm_filter m perm u qs (initRecord m p (some u) obj) = false
    ∧ initRecord m p (some u) obj
        ∈ (bulk_remove_perm m perm u qs (assign_perm m perm u obj db).2).2.records := by
  have hpkne : obj.pk ≠ none := by simp [hpk]
  have e1 := assign_perm_fresh m perm u obj db p hpkne hres hfresh
  have ht2 : (initRecord m p (some u) obj).target = .generic obj.ctype (some v) := by
    simp [initRecord, hgen, hpk]
  have hnostr : ∀ s : String, v ≠ .vstr s := by
    intro s hv
    exact hmis (by rw [hv]; rfl)
  have hbfalse : bulk_remove_perm_filter m perm u qs (initRecord m p (some u) obj)
      = false := by
    have hnot : ¬ (bulk_remove_perm_filter m perm u qs (initRecord m p (some u) obj)
        = true) := by
      rw [bulk_filter_iff]
      rintro ⟨-, -, htgt⟩
      simp only [targetInBatchProp, if_pos hgen] at htgt
      obtain ⟨ct, v2, he, o, ho, hv2⟩ := htgt
      rw [ht2] at he
      injection he with h1 h2
      injection h2 with h3
      exact hnostr (strOfPk o.pk) (h3.trans hv2)
    simpa using hnot
  refine ⟨by rw [e1], ht2, ?_, hbfalse, ?_⟩
  · apply isForTriple_matches m perm u obj db.perms p hres
    refine ⟨initRecord_permission m p (some u) obj,
      initRecord_owner m p (some u) obj, ?_⟩
    rw [if_pos hgen, hpk]
    exact ⟨obj.ctype, ht2⟩
  · rw [e1]
    simp only [bulk_remove_perm]
    rw [List.mem_filter]
    refine ⟨List.mem_append_right _ (List.mem_singleton.mpr rfl), ?_⟩
    simp [hbfalse]

theorem C10_bulk_remove_str_mismatch_witness :
    (assign_perm mGen (.name "view_item") 1 objIntPk dbEmpty).1
      = .ok (initRecord mGen permView (some 1) objIntPk)
    ∧ (initRecord mGen permView (some 1) objIntPk).target
        = .generic objIntPk.ctype (some (.vint 1))
    ∧ remove_perm_filter mGen (.name "view_item") 1 objIntPk
        (initRecord mGen permView (some 1) objIntPk) = true
    ∧ bulk_remove_perm_filter mGen (.name "view_item") 1 qsOne
        (initRecord mGen permView (some 1) objIntPk) = false
    ∧ initRecord mGen permView (some 1) objIntPk
        ∈ (bulk_remove_perm mGen (.name "view_item") 1 qsOne
            (assign_perm mGen (.name "view_item") 1 objIntPk dbEmpty).2).2.records :=
  C10_bulk_remove_str_mismatch mGen (.name "view_item") 1 objIntPk qsOne dbEmpty
    permView (.vint 1) rfl rfl (by decide) (by decide) rfl rfl

end Guardian
